import Mathlib

/-!
# AI energy tracker: the background worker

A shallow embedding of `src/background.js`: the platform registry, the
classifier `isAIPlatform`, the estimator `calculateEnergy`, the completion
handler that aggregates the daily statistics and the `dailyReset` rollover.

Conventions of the embedding.
* JavaScript strings are `String`s. The `Map` of pending requests and the own
  properties of a plain object are association lists in insertion order; a
  read `obj[key]` of a plain object also sees the names inherited from
  `Object.prototype`.
* Counters are `Nat`, timestamps and durations in milliseconds are `Int`.
  A JavaScript number that need not be finite is a `JSNum`: a real (exact
  arithmetic, zero unsigned), an infinity or NaN. The update of the statistics
  is written once for any carrier of the arithmetic, so that it can be read
  both over `JSNum` and over a field.
* The module-level object `INITIAL_STATS` is part of the worker's state: the
  spread `{ ...INITIAL_STATS }` shares its `sites` and `hourlyData`.
* `new URL(url).hostname`, the clock and the hour of day are inputs.
-/

namespace Background

/-! ## Dictionaries in insertion order -/

/-- Lookup of an own key: `map.get(key)`, or the own property `key` of an object. -/
def mapGet {β : Type} : List (String × β) → String → Option β
  | [], _ => none
  | (k, v) :: rest, key => if k = key then some v else mapGet rest key

/-- Assignment `obj[key] = v` / `map.set(key, v)`: overwrite in place, or append a new key. -/
def mapSet {β : Type} : List (String × β) → String → β → List (String × β)
  | [], key, v => [(key, v)]
  | (k, w) :: rest, key, v => if k = key then (k, v) :: rest else (k, w) :: mapSet rest key v

/-- In-place mutation of the object stored under the own key `key`; the list
is unchanged when there is no such own key. -/
def mapModify {β : Type} (f : β → β) : List (String × β) → String → List (String × β)
  | [], _ => []
  | (k, w) :: rest, key => if k = key then (k, f w) :: rest else (k, w) :: mapModify f rest key

/-- Removal `map.delete(key)`. -/
def mapDelete {β : Type} (m : List (String × β)) (key : String) : List (String × β) :=
  m.filter (fun p => !(p.1 == key))

/-- The property names of `Object.prototype` as built in, which every plain
object inherits; each of them holds a function or an object, a truthy value.
(The writes of a completion recorded under such a name land on the built-in
member; under `__proto__` they would add `lastUsed` to these names, a name no
hostname can take, hostnames being lower case.) -/
def objectPrototypeNames : List String :=
  ["constructor", "__defineGetter__", "__defineSetter__", "hasOwnProperty",
   "__lookupGetter__", "__lookupSetter__", "isPrototypeOf", "propertyIsEnumerable",
   "toString", "valueOf", "__proto__", "toLocaleString"]

/-- What the read `obj[key]` of a plain object finds: an own property, a
member of `Object.prototype`, or `undefined`. -/
inductive ObjRead (β : Type) where
  | own (v : β)
  | inherited
  | undefined

/-- The read `obj[key]` of a plain object with the own properties `obj`. -/
def objRead {β : Type} (obj : List (String × β)) (key : String) : ObjRead β :=
  match mapGet obj key with
  | some v => ObjRead.own v
  | none => if objectPrototypeNames.contains key then ObjRead.inherited else ObjRead.undefined

/-- Truthiness of a read whose own values are objects: only `undefined` is falsy. -/
def ObjRead.truthy {β : Type} : ObjRead β → Bool
  | ObjRead.undefined => false
  | _ => true

/-! ## Platform registry -/

/-- A registry entry, `{ name, baseEnergy }`. -/
structure PlatformEntry where
  name : String
  baseEnergy : ℚ

/-- The registry `AI_PLATFORMS`, in source order. -/
def AI_PLATFORMS : List (String × PlatformEntry) :=
  [ ("chatgpt.com", ⟨"ChatGPT", 0.0006⟩),
    ("claude.ai", ⟨"Claude", 0.0005⟩),
    ("gemini.google.com", ⟨"Gemini", 0.0004⟩),
    ("chat.deepseek.com", ⟨"DeepSeek", 0.0003⟩),
    ("www.copilot.com", ⟨"Copilot", 0.0005⟩),
    ("grok.com", ⟨"Grok", 0.0005⟩),
    ("poe.com", ⟨"Poe", 0.0004⟩),
    ("perplexity.ai", ⟨"Perplexity", 0.0004⟩),
    ("character.ai", ⟨"Character.AI", 0.0003⟩),
    ("huggingface.co", ⟨"Hugging Face", 0.0003⟩),
    ("replicate.com", ⟨"Replicate", 0.0004⟩) ]

/-- The keys of the registry. -/
def registryKeys : List String := AI_PLATFORMS.map Prod.fst

/-! ## Strings -/

/-- `s.replace(pat, '')` with a string pattern, on characters: the first
occurrence of `pat` is removed, wherever it stands. -/
def removeFirst (pat : List Char) : List Char → List Char
  | [] => []
  | c :: cs => if pat.isPrefixOf (c :: cs) then (c :: cs).drop pat.length else c :: removeFirst pat cs

/-- `hostname.replace('www.', '')`. -/
def replaceWww (hostname : String) : String :=
  String.mk (removeFirst "www.".data hostname.data)

/-- Whether `pat` occurs in the character list. -/
def occursIn (pat : List Char) : List Char → Bool
  | [] => pat.isEmpty
  | c :: cs => pat.isPrefixOf (c :: cs) || occursIn pat cs

/-- A literal pattern with the `i` flag, `/tok/i.test(s)`: `tok` occurs in `s`
up to ASCII case. The tokens are given in lower case. -/
def testNoCase (tok : String) (s : String) : Bool :=
  occursIn tok.data (s.data.map Char.toLower)

/-- The literals of `aiPatterns`, in source order (`\.` is a literal dot). -/
def aiPatterns : List String :=
  ["chat.", "ai.", "gpt", "llm", "assistant", "bot.", "claude", "gemini", "copilot"]

/-! ## Classifier -/

/-- The function `isAIPlatform(url)`. `hostnameOf url` is `new URL(url).hostname`,
`none` when the constructor throws; `none` as a result is `null`. -/
def isAIPlatform (hostnameOf : String → Option String) (url : String) : Option String :=
  match hostnameOf url with
  | none => none
  | some raw =>
    let hostname := replaceWww raw
    if (objRead AI_PLATFORMS hostname).truthy then some hostname
    else if aiPatterns.any (fun p => testNoCase p hostname) then some hostname else none

/-- A small URL reader for worked examples: the text between `://` and the
next `/`, `?` or `#`. -/
def hostText : List Char → List Char
  | ':' :: '/' :: '/' :: rest => rest.takeWhile (fun c => !(c == '/' || c == '?' || c == '#'))
  | [] => []
  | _ :: rest => hostText rest

/-- The example reader as a `hostnameOf` function; it rejects a text without a host. -/
def exampleHostname (url : String) : Option String :=
  match hostText url.data with
  | [] => none
  | h => some (String.mk h)

/-- The spec's normalisation of a hostname: a leading `www.` is stripped. -/
def stripLeadingWww (hostname : String) : String :=
  if "www.".data.isPrefixOf hostname.data then String.mk (hostname.data.drop 4) else hostname

/-! ## Numbers -/

/-- A JavaScript number: a real, `Infinity`, `-Infinity` or `NaN`. -/
inductive JSNum where
  | fin (r : ℝ)
  | posInf
  | negInf
  | nan

namespace JSNum

/-- The product of an infinity with the finite `r`: `pos` for `r > 0`, `neg`
for `r < 0`, `NaN` for `r = 0`. -/
noncomputable def signed (r : ℝ) (pos neg : JSNum) : JSNum :=
  if 0 < r then pos else if r < 0 then neg else nan

/-- The operator `+` on numbers. -/
noncomputable def add : JSNum → JSNum → JSNum
  | fin a, fin b => fin (a + b)
  | fin _, posInf => posInf
  | fin _, negInf => negInf
  | fin _, nan => nan
  | posInf, fin _ => posInf
  | posInf, posInf => posInf
  | posInf, negInf => nan
  | posInf, nan => nan
  | negInf, fin _ => negInf
  | negInf, posInf => nan
  | negInf, negInf => negInf
  | negInf, nan => nan
  | nan, _ => nan

/-- The operator `*` on numbers. -/
noncomputable def mul : JSNum → JSNum → JSNum
  | fin a, fin b => fin (a * b)
  | fin a, posInf => signed a posInf negInf
  | fin a, negInf => signed a negInf posInf
  | fin _, nan => nan
  | posInf, fin b => signed b posInf negInf
  | posInf, posInf => posInf
  | posInf, negInf => negInf
  | posInf, nan => nan
  | negInf, fin b => signed b negInf posInf
  | negInf, posInf => negInf
  | negInf, negInf => posInf
  | negInf, nan => nan
  | nan, _ => nan

/-- The operator `/` on numbers. -/
noncomputable def div : JSNum → JSNum → JSNum
  | fin a, fin b => if b = 0 then signed a posInf negInf else fin (a / b)
  | fin _, posInf => fin 0
  | fin _, negInf => fin 0
  | fin _, nan => nan
  | posInf, fin b => if b < 0 then negInf else posInf
  | posInf, posInf => nan
  | posInf, negInf => nan
  | posInf, nan => nan
  | negInf, fin b => if b < 0 then posInf else negInf
  | negInf, posInf => nan
  | negInf, negInf => nan
  | negInf, nan => nan
  | nan, _ => nan

/-- The comparison `<=`: false as soon as one side is `NaN`. -/
def le : JSNum → JSNum → Prop
  | fin a, fin b => a ≤ b
  | fin _, posInf => True
  | fin _, negInf => False
  | fin _, nan => False
  | posInf, fin _ => False
  | posInf, posInf => True
  | posInf, negInf => False
  | posInf, nan => False
  | negInf, fin _ => True
  | negInf, posInf => True
  | negInf, negInf => True
  | negInf, nan => False
  | nan, _ => False

/-- The comparison `<`: false as soon as one side is `NaN`. -/
def lt : JSNum → JSNum → Prop
  | fin a, fin b => a < b
  | fin _, posInf => True
  | fin _, negInf => False
  | fin _, nan => False
  | posInf, _ => False
  | negInf, fin _ => True
  | negInf, posInf => True
  | negInf, negInf => False
  | negInf, nan => False
  | nan, _ => False

/-- The comparison `===` of two numbers: `NaN` equals nothing, itself included. -/
def eqJS (a b : JSNum) : Prop := a ≠ nan ∧ a = b

/-- The value `JSON.parse(JSON.stringify(x))` of a number: a finite number is
kept, `NaN` and the infinities become `null` (`none`). -/
def toJSON : JSNum → Option ℝ
  | fin r => some r
  | _ => none

noncomputable instance : Add JSNum := ⟨add⟩

noncomputable instance : Mul JSNum := ⟨mul⟩

noncomputable instance : Div JSNum := ⟨div⟩

instance : LE JSNum := ⟨le⟩

instance : LT JSNum := ⟨lt⟩

instance : Zero JSNum := ⟨fin 0⟩

instance (n : Nat) [OfNat ℝ n] : OfNat JSNum n := ⟨fin (OfNat.ofNat n)⟩

noncomputable instance : OfScientific JSNum :=
  ⟨fun m s e => fin (OfScientific.ofScientific m s e)⟩

end JSNum

/-- The function `Math.log` on a finite argument: `-Infinity` at zero, `NaN`
below zero. -/
noncomputable def jsLog (x : ℝ) : JSNum :=
  if 0 < x then JSNum.fin (Real.log x) else if x = 0 then JSNum.negInf else JSNum.nan

/-! ## Estimator -/

/-- The constant `baseEnergy` of `calculateEnergy`: the coefficient of the
platform found under `site`, or the default `0.0003` when the read is
`undefined`. An inherited member is truthy and has no `baseEnergy`: the
`undefined` taken from it is `NaN` as a factor. -/
noncomputable def baseEnergyOf (site : String) : JSNum :=
  match objRead AI_PLATFORMS site with
  | ObjRead.own platform => JSNum.fin (platform.baseEnergy : ℝ)
  | ObjRead.inherited => JSNum.nan
  | ObjRead.undefined => 0.0003

/-- The constant `timeMultiplier`: `Math.log(responseTime / 1000 + 1) / Math.log(10) + 1`,
for a finite `responseTime`. -/
noncomputable def timeMultiplier (responseTime : ℝ) : JSNum :=
  jsLog (responseTime / 1000 + 1) / jsLog 10 + 1

/-- The constant `statusMultiplier`: `1.0` for a status in `[200, 300)`, else `0.3`. -/
noncomputable def statusMultiplier (statusCode : Int) : JSNum :=
  if 200 ≤ statusCode ∧ statusCode < 300 then 1.0 else 0.3

/-- The function `calculateEnergy(responseTime, site, statusCode)`. -/
noncomputable def calculateEnergy (responseTime : ℝ) (site : String) (statusCode : Int) : JSNum :=
  baseEnergyOf site * timeMultiplier responseTime * statusMultiplier statusCode

/-! ## Daily statistics -/

/-- The per-site record `{ count, totalTime, energy, lastUsed }`. -/
structure SiteStats (R : Type) where
  count : Nat
  totalTime : Int
  energy : R
  lastUsed : Int

/-- The object `dailyStats`. `hourlyData` is an array of 24 counters;
`lastReset` is the extra field written by the popup's reset, absent otherwise. -/
structure DailyStats (R : Type) where
  requests : Nat
  totalTime : Int
  energyUsed : R
  co2Footprint : R
  sites : List (String × SiteStats R)
  hourlyData : { l : List Nat // l.length = 24 }
  isTracking : Bool
  lastReset : Option Int

/-- The object `INITIAL_STATS` as declared, its value when the module is loaded. -/
def INITIAL_STATS {R : Type} [Zero R] : DailyStats R :=
  { requests := 0
    totalTime := 0
    energyUsed := 0
    co2Footprint := 0
    sites := []
    hourlyData := ⟨List.replicate 24 0, List.length_replicate 24 0⟩
    isTracking := true
    lastReset := none }

/-- The statement `stats.hourlyData[hour]++`: the counter at index `hour` is
read, incremented and written back. -/
def incrHour (hour : Fin 24) (h : { l : List Nat // l.length = 24 }) :
    { l : List Nat // l.length = 24 } :=
  ⟨h.val.set hour.val (h.val.getD hour.val 0 + 1), (List.length_set _ _ _).trans h.property⟩

/-- The body of the storage callback of the `onCompleted` listener, from
`stats.requests++` to `stats.hourlyData[...]++`, as the value of `stats` that
is written back. `cbNow` is `Date.now()` and `hour` is `new Date().getHours()`
inside the callback. When `stats.sites[site]` is an inherited member, no entry
is created and the four writes to `siteStats` land on that member, outside
`stats`. -/
def recordCompletion {R : Type} [Zero R] [Add R] [Mul R] [OfScientific R] [OfNat R 1000]
    (stats : DailyStats R) (site : String) (responseTime : Int) (energy : R) (cbNow : Int)
    (hour : Fin 24) : DailyStats R :=
  let created :=
    if (objRead stats.sites site).truthy then stats.sites
    else mapSet stats.sites site { count := 0, totalTime := 0, energy := 0, lastUsed := cbNow }
  let sites := mapModify
    (fun siteStats =>
      { count := siteStats.count + 1
        totalTime := siteStats.totalTime + responseTime
        energy := siteStats.energy + energy
        lastUsed := cbNow })
    created site
  { requests := stats.requests + 1
    totalTime := stats.totalTime + responseTime
    energyUsed := stats.energyUsed + energy
    co2Footprint := stats.co2Footprint + energy * 0.475 * 1000
    sites := sites
    hourlyData := incrHour hour stats.hourlyData
    isTracking := stats.isTracking
    lastReset := stats.lastReset }

/-- The sum of `sites[*].count` over the entries of `sites`. -/
def siteCountSum {R : Type} (sites : List (String × SiteStats R)) : Nat :=
  (sites.map (fun p => p.2.count)).sum

/-- One update of the statistics with a given energy value. -/
structure Update (R : Type) where
  site : String
  responseTime : Int
  energy : R
  cbNow : Int
  hour : Fin 24

/-- The statistics after the updates `us`, applied one after another. -/
def afterUpdates {R : Type} [Zero R] [Add R] [Mul R] [OfScientific R] [OfNat R 1000]
    (stats : DailyStats R) : List (Update R) → DailyStats R
  | [] => stats
  | u :: us =>
    afterUpdates (recordCompletion stats u.site u.responseTime u.energy u.cbNow u.hour) us

/-! ## Pending requests and the completion handler -/

/-- A value of `requestTimings`: `{ startTime, site, url }`. -/
structure Timing where
  startTime : Int
  site : String
  url : String

/-- The snapshot `JSON.parse(JSON.stringify(stats))`: a deep copy in which a
number that is not finite has become `null`. -/
def jsonClone (stats : DailyStats JSNum) : DailyStats (Option ℝ) :=
  { requests := stats.requests
    totalTime := stats.totalTime
    energyUsed := stats.energyUsed.toJSON
    co2Footprint := stats.co2Footprint.toJSON
    sites := stats.sites.map (fun p =>
      (p.1, { count := p.2.count, totalTime := p.2.totalTime, energy := p.2.energy.toJSON,
              lastUsed := p.2.lastUsed }))
    hourlyData := stats.hourlyData
    isTracking := stats.isTracking
    lastReset := stats.lastReset }

/-- A history entry `{ date, stats }`, `stats` being a snapshot. -/
structure HistoryEntry where
  date : String
  stats : DailyStats (Option ℝ)

/-- The two keys of `chrome.storage.local`; `none` is a key that was never set. -/
structure Storage where
  dailyStats : Option (DailyStats JSNum)
  history : Option (List HistoryEntry)

/-- The state of the worker: the `requestTimings` map, the current value of
the module-level object `INITIAL_STATS`, and the storage. -/
structure Worker where
  requestTimings : List (String × Timing)
  initialStats : DailyStats JSNum
  storage : Storage

/-- The statistics a completion writes back for a pending `timing`: `stats` is
`result.dailyStats || { ...INITIAL_STATS }`, `responseTime` is
`Date.now() - timing.startTime`, the energy is `calculateEnergy` of it. -/
noncomputable def completionUpdate (initial : DailyStats JSNum) (result : Option (DailyStats JSNum))
    (timing : Timing) (statusCode : Int) (now cbNow : Int) (hour : Fin 24) : DailyStats JSNum :=
  let stats := result.getD initial
  let responseTime := now - timing.startTime
  let energy := calculateEnergy (responseTime : ℝ) timing.site statusCode
  recordCompletion stats timing.site responseTime energy cbNow hour

/-- The object `INITIAL_STATS` after the callback has written `written`: when
`result.dailyStats` was missing, `stats` was the spread `{ ...INITIAL_STATS }`,
whose `sites` and `hourlyData` are the objects of `INITIAL_STATS` itself. -/
def initialAfter (initial : DailyStats JSNum) (result : Option (DailyStats JSNum))
    (written : DailyStats JSNum) : DailyStats JSNum :=
  match result with
  | some _ => initial
  | none => { initial with sites := written.sites, hourlyData := written.hourlyData }

/-- The `chrome.webRequest.onCompleted` listener, with its storage callback run
to completion: `now` is `Date.now()` in the listener. -/
noncomputable def onCompleted (w : Worker) (requestId : String) (statusCode : Int)
    (now cbNow : Int) (hour : Fin 24) : Worker :=
  match mapGet w.requestTimings requestId with
  | none => w
  | some timing =>
    let written :=
      completionUpdate w.initialStats w.storage.dailyStats timing statusCode now cbNow hour
    { requestTimings := mapDelete w.requestTimings requestId
      initialStats := initialAfter w.initialStats w.storage.dailyStats written
      storage := { w.storage with dailyStats := some written } }

/-- One completion of a tracked request, as the storage callback sees it. -/
structure Completion where
  timing : Timing
  statusCode : Int
  now : Int
  cbNow : Int
  hour : Fin 24

/-- The object `INITIAL_STATS` and the slot `dailyStats` after the completions
`cs`, applied one after another. -/
noncomputable def afterCompletions (initial : DailyStats JSNum) (slot : Option (DailyStats JSNum)) :
    List Completion → DailyStats JSNum × Option (DailyStats JSNum)
  | [] => (initial, slot)
  | c :: cs =>
    afterCompletions
      (initialAfter initial slot
        (completionUpdate initial slot c.timing c.statusCode c.now c.cbNow c.hour))
      (some (completionUpdate initial slot c.timing c.statusCode c.now c.cbNow c.hour)) cs

/-! ## Daily rollover -/

/-- The call `history.slice(-30)`: the last 30 elements. -/
def sliceLast30 {α : Type} (history : List α) : List α :=
  history.drop (history.length - 30)

/-- The entry a rollover pushes: the date and the snapshot of
`result.dailyStats || { ...INITIAL_STATS }`. -/
def rolloverEntry (initial : DailyStats JSNum) (result : Option (DailyStats JSNum))
    (isoDate : String) : HistoryEntry :=
  { date := isoDate, stats := jsonClone (result.getD initial) }

/-- The `chrome.alarms.onAlarm` listener with its storage callback; `initial`
is the current value of `INITIAL_STATS`, `isoDate` is `new Date().toISOString()`. -/
def onAlarm (initial : DailyStats JSNum) (storage : Storage) (alarmName : String)
    (isoDate : String) : Storage :=
  if alarmName ≠ "dailyReset" then storage
  else
    let history := storage.history.getD []
    let currentStats := storage.dailyStats.getD initial
    let history := history ++ [{ date := isoDate, stats := jsonClone currentStats }]
    { history := some (sliceLast30 history)
      dailyStats := some { initial with isTracking := currentStats.isTracking } }

/-- One rollover: the value of `INITIAL_STATS`, the `dailyStats` found in
storage and the date at that moment. -/
structure Rollover where
  initial : DailyStats JSNum
  dailyStats : Option (DailyStats JSNum)
  isoDate : String

/-- The slot `history` after the rollovers `evs`, run one after another. -/
def afterRollovers (history : Option (List HistoryEntry)) :
    List Rollover → Option (List HistoryEntry)
  | [] => history
  | ev :: rest =>
    afterRollovers
      (onAlarm ev.initial { dailyStats := ev.dailyStats, history := history } "dailyReset"
        ev.isoDate).history rest

/-- A worked sequence of 31 rollovers: rollover `i` finds `requests = i` and is dated `day i`. -/
def sampleRollovers : List Rollover :=
  (List.range 31).map
    (fun i =>
      { initial := INITIAL_STATS
        dailyStats := some { (INITIAL_STATS : DailyStats JSNum) with requests := i }
        isoDate := "day " ++ toString i })

/-- The pending request of the worked examples: `chatgpt.com` since `t = 1000`. -/
def sampleTiming : Timing :=
  { startTime := 1000, site := "chatgpt.com", url := "https://chatgpt.com/api/chat" }

/-- A worked worker state: request `42` pending, storage as written at installation. -/
def sampleWorker : Worker :=
  { requestTimings := [("42", sampleTiming)]
    initialStats := INITIAL_STATS
    storage := { dailyStats := some INITIAL_STATS, history := some [] } }

/-- A worked worker state in which `dailyStats` was never stored: request `42` pending. -/
def firstRunWorker : Worker :=
  { requestTimings := [("42", sampleTiming)]
    initialStats := INITIAL_STATS
    storage := { dailyStats := none, history := none } }

/-- A worked completion for the hostname `constructor`, as classified from
`https://constructor/api`. -/
def constructorCompletion : Completion :=
  { timing := { startTime := 1000, site := "constructor", url := "https://constructor/api" }
    statusCode := 200
    now := 1450
    cbNow := 1451
    hour := 9 }

/-! ## Classifier: proofs -/

theorem replaceWww_of_leading (raw : String) (h : "www.".data.isPrefixOf raw.data = true) :
    replaceWww raw = String.mk (raw.data.drop 4) := by
  unfold replaceWww
  cases hd : raw.data with
  | nil => rw [hd] at h; simp at h
  | cons c cs =>
    rw [hd] at h
    simp only [removeFirst, h, if_true]
    rfl

theorem mem_registryKeys (key : String) :
    key ∈ registryKeys ↔
      key = "chatgpt.com" ∨ key = "claude.ai" ∨ key = "gemini.google.com" ∨
      key = "chat.deepseek.com" ∨ key = "www.copilot.com" ∨ key = "grok.com" ∨
      key = "poe.com" ∨ key = "perplexity.ai" ∨ key = "character.ai" ∨
      key = "huggingface.co" ∨ key = "replicate.com" := by
  simp [registryKeys, AI_PLATFORMS]

theorem registry_has_key (key : String) (h : key ∈ registryKeys) :
    (objRead AI_PLATFORMS key).truthy = true := by
  rw [mem_registryKeys] at h
  rcases h with h | h | h | h | h | h | h | h | h | h | h <;> subst h <;> decide

theorem replaceWww_key_fixed (key : String) (h : key ∈ registryKeys)
    (hno : "www.".data.isPrefixOf key.data = false) : replaceWww key = key := by
  rw [mem_registryKeys] at h
  rcases h with h | h | h | h | h | h | h | h | h | h | h <;> subst h <;>
    first
      | decide
      | exact absurd hno (by decide)

/-- C4. A URL whose hostname, once a leading `www.` is stripped, is a key of
`AI_PLATFORMS` is classified as that key; the URL enters only through its
hostname, so path and query play no part. -/
theorem isAIPlatform_exact_key (hostnameOf : String → Option String) (url raw key : String)
    (hurl : hostnameOf url = some raw) (hstrip : stripLeadingWww raw = key)
    (hkey : key ∈ registryKeys) : isAIPlatform hostnameOf url = some key := by
  have hrep : replaceWww raw = key := by
    unfold stripLeadingWww at hstrip
    by_cases hp : "www.".data.isPrefixOf raw.data = true
    · rw [if_pos hp] at hstrip
      rw [replaceWww_of_leading raw hp, hstrip]
    · rw [if_neg hp] at hstrip
      subst hstrip
      exact replaceWww_key_fixed raw hkey (Bool.eq_false_iff.mpr hp)
  simp only [isAIPlatform, hurl, hrep, registry_has_key key hkey, if_true]

/-- C4, worked: `www.chatgpt.com` with a path and a query string. -/
theorem isAIPlatform_exact_key_witness :
    exampleHostname "https://www.chatgpt.com/api/chat?model=4" = some "www.chatgpt.com" ∧
    stripLeadingWww "www.chatgpt.com" = "chatgpt.com" ∧ "chatgpt.com" ∈ registryKeys ∧
    isAIPlatform exampleHostname "https://www.chatgpt.com/api/chat?model=4"
      = some "chatgpt.com" :=
  ⟨by decide, by decide, by decide,
    isAIPlatform_exact_key exampleHostname _ "www.chatgpt.com" "chatgpt.com"
      (by decide) (by decide) (by decide)⟩

/-- Once the first `www.` is removed, a hostname that reads as `undefined` in
the registry and contains no token is not classified. -/
theorem isAIPlatform_none_of_replaced (hostnameOf : String → Option String) (url raw : String)
    (hurl : hostnameOf url = some raw)
    (hkey : (objRead AI_PLATFORMS (replaceWww raw)).truthy = false)
    (htok : aiPatterns.any (fun p => testNoCase p (replaceWww raw)) = false) :
    isAIPlatform hostnameOf url = none := by
  simp [isAIPlatform, hurl, hkey, htok]

/-- C5. The hostname `gpwww.t.com` contains none of the tokens and is not a
registry key, with or without a leading `www.` stripped; removing its inner
`www.` leaves `gpt.com`, and the URL is classified under that name. -/
theorem isAIPlatform_inner_www :
    exampleHostname "https://gpwww.t.com/" = some "gpwww.t.com" ∧
    aiPatterns.any (fun p => testNoCase p "gpwww.t.com") = false ∧
    "gpwww.t.com" ∉ registryKeys ∧ stripLeadingWww "gpwww.t.com" ∉ registryKeys ∧
    isAIPlatform exampleHostname "https://gpwww.t.com/" = some "gpt.com" := by
  refine ⟨by decide, by decide, by decide, by decide, by decide⟩

/-- The hostname `constructor` is classified: the registry read finds the
member inherited from `Object.prototype`. -/
theorem isAIPlatform_constructor :
    exampleHostname "https://constructor/api" = some "constructor" ∧
    "constructor" ∉ registryKeys ∧
    aiPatterns.any (fun p => testNoCase p "constructor") = false ∧
    isAIPlatform exampleHostname "https://constructor/api" = some "constructor" := by
  refine ⟨by decide, by decide, by decide, by decide⟩

/-! ## Numbers: proofs -/

namespace JSNum

theorem fin_add_fin (a b : ℝ) : fin a + fin b = fin (a + b) := rfl

theorem fin_mul_fin (a b : ℝ) : fin a * fin b = fin (a * b) := rfl

theorem nan_add (x : JSNum) : nan + x = nan := rfl

theorem add_nan (x : JSNum) : x + nan = nan := by cases x <;> rfl

theorem nan_mul (x : JSNum) : nan * x = nan := rfl

theorem mul_nan (x : JSNum) : x * nan = nan := by cases x <;> rfl

theorem fin_div_fin (a b : ℝ) (hb : b ≠ 0) : fin a / fin b = fin (a / b) := by
  show div (fin a) (fin b) = fin (a / b)
  simp [div, hb]

theorem negInf_div_fin (b : ℝ) (hb : 0 < b) : negInf / fin b = negInf := by
  show div negInf (fin b) = negInf
  simp [div, not_lt.mpr hb.le]

theorem nan_div (x : JSNum) : nan / x = nan := rfl

theorem ofScientific_eq (m : Nat) (s : Bool) (e : Nat) :
    (OfScientific.ofScientific m s e : JSNum) = fin (OfScientific.ofScientific m s e) := rfl

theorem ofNat_eq (n : Nat) [OfNat ℝ n] : (OfNat.ofNat n : JSNum) = fin (OfNat.ofNat n) := rfl

theorem zero_eq : (0 : JSNum) = fin 0 := rfl

theorem fin_le_fin (a b : ℝ) : fin a ≤ fin b ↔ a ≤ b := Iff.rfl

theorem fin_lt_fin (a b : ℝ) : fin a < fin b ↔ a < b := Iff.rfl

theorem not_nan_le (x : JSNum) : ¬ (nan ≤ x) := fun h => h

theorem not_eqJS_nan (x : JSNum) : ¬ eqJS nan x := fun h => h.1 rfl

theorem eqJS_fin (a b : ℝ) : eqJS (fin a) (fin b) ↔ a = b := by
  unfold eqJS
  constructor
  · rintro ⟨_, h⟩; exact fin.inj h
  · rintro rfl; exact ⟨fun h => JSNum.noConfusion h, rfl⟩

/-- A positive finite factor distributes over a sum, infinities and `NaN` included. -/
theorem add_mul_fin_pos (a b : JSNum) (c : ℝ) (hc : 0 < c) :
    (a + b) * fin c = a * fin c + b * fin c := by
  have hs1 : signed c posInf negInf = posInf := by simp [signed, hc]
  have hs2 : signed c negInf posInf = negInf := by simp [signed, hc]
  cases a <;> cases b <;>
    simp only [HAdd.hAdd, Add.add, HMul.hMul, Mul.mul, add, mul, hs1, hs2]
  exact congrArg fin (add_mul _ _ _)

end JSNum

theorem jsLog_pos (x : ℝ) (hx : 0 < x) : jsLog x = JSNum.fin (Real.log x) := by
  simp [jsLog, hx]

theorem jsLog_zero : jsLog 0 = JSNum.negInf := by
  simp [jsLog]

theorem jsLog_neg (x : ℝ) (hx : x < 0) : jsLog x = JSNum.nan := by
  simp [jsLog, not_lt.mpr hx.le, hx.ne]

/-! ## Estimator: proofs -/

theorem mapGet_mem {β : Type} (m : List (String × β)) (key : String) (v : β)
    (h : mapGet m key = some v) : (key, v) ∈ m := by
  induction m with
  | nil => simp [mapGet] at h
  | cons p rest ih =>
    obtain ⟨k, w⟩ := p
    by_cases hk : k = key
    · simp only [mapGet, if_pos hk, Option.some.injEq] at h
      simp [hk, h]
    · simp only [mapGet, if_neg hk] at h
      exact List.mem_cons_of_mem _ (ih h)

theorem registry_baseEnergy_pos (p : String × PlatformEntry) (hp : p ∈ AI_PLATFORMS) :
    0 < p.2.baseEnergy := by
  simp only [AI_PLATFORMS, List.mem_cons, List.mem_singleton, List.not_mem_nil, or_false] at hp
  rcases hp with h | h | h | h | h | h | h | h | h | h | h <;> subst h <;> norm_num

theorem objRead_own {β : Type} (obj : List (String × β)) (key : String) (v : β)
    (h : mapGet obj key = some v) : objRead obj key = ObjRead.own v := by
  simp [objRead, h]

theorem objRead_undefined {β : Type} (obj : List (String × β)) (key : String)
    (h : mapGet obj key = none) (hk : key ∉ objectPrototypeNames) :
    objRead obj key = ObjRead.undefined := by
  simp [objRead, h, hk]

theorem objRead_inherited {β : Type} (obj : List (String × β)) (key : String)
    (h : mapGet obj key = none) (hk : key ∈ objectPrototypeNames) :
    objRead obj key = ObjRead.inherited := by
  simp [objRead, h, hk]

theorem registry_no_inherited_key (site : String) (h : site ∈ objectPrototypeNames) :
    mapGet AI_PLATFORMS site = none := by
  have hs : (mapGet AI_PLATFORMS site).isSome = false := by
    simp only [objectPrototypeNames, List.mem_cons, List.mem_singleton, List.not_mem_nil,
      or_false] at h
    rcases h with h | h | h | h | h | h | h | h | h | h | h | h <;> subst h <;> decide
  cases hg : mapGet AI_PLATFORMS site with
  | none => rfl
  | some v => rw [hg] at hs; simp at hs

/-- For a site that is a name of `Object.prototype` the coefficient is `NaN`. -/
theorem baseEnergyOf_inherited (site : String) (h : site ∈ objectPrototypeNames) :
    baseEnergyOf site = JSNum.nan := by
  unfold baseEnergyOf
  rw [objRead_inherited _ _ (registry_no_inherited_key site h) h]

/-- For any other site the coefficient is a positive real. -/
theorem baseEnergyOf_ordinary (site : String) (h : site ∉ objectPrototypeNames) :
    ∃ b : ℝ, 0 < b ∧ baseEnergyOf site = JSNum.fin b := by
  unfold baseEnergyOf
  cases hg : mapGet AI_PLATFORMS site with
  | none =>
    rw [objRead_undefined _ _ hg h]
    exact ⟨0.0003, by norm_num, rfl⟩
  | some platform =>
    rw [objRead_own _ _ _ hg]
    refine ⟨(platform.baseEnergy : ℝ), ?_, rfl⟩
    exact_mod_cast registry_baseEnergy_pos (site, platform) (mapGet_mem _ _ _ hg)

theorem statusMultiplier_ok (statusCode : Int) (h : 200 ≤ statusCode ∧ statusCode < 300) :
    statusMultiplier statusCode = JSNum.fin 1 := by
  unfold statusMultiplier
  rw [if_pos h, JSNum.ofScientific_eq]
  norm_num

theorem statusMultiplier_failed (statusCode : Int) (h : ¬ (200 ≤ statusCode ∧ statusCode < 300)) :
    statusMultiplier statusCode = JSNum.fin (3 / 10) := by
  unfold statusMultiplier
  rw [if_neg h, JSNum.ofScientific_eq]
  norm_num

theorem statusMultiplier_fin (statusCode : Int) :
    ∃ m : ℝ, 0 < m ∧ statusMultiplier statusCode = JSNum.fin m := by
  by_cases h : 200 ≤ statusCode ∧ statusCode < 300
  · exact ⟨1, by norm_num, statusMultiplier_ok statusCode h⟩
  · exact ⟨3 / 10, by norm_num, statusMultiplier_failed statusCode h⟩

/-- Above `-1000` ms the time multiplier is the real `log10(t / 1000 + 1) + 1`. -/
theorem timeMultiplier_of_gt (t : ℝ) (h : -1000 < t) :
    timeMultiplier t = JSNum.fin (Real.log (t / 1000 + 1) / Real.log 10 + 1) := by
  have hpos : (0 : ℝ) < t / 1000 + 1 := by linarith
  have h10 : Real.log 10 ≠ 0 := (Real.log_pos (by norm_num)).ne'
  unfold timeMultiplier
  rw [jsLog_pos _ hpos, jsLog_pos 10 (by norm_num), JSNum.fin_div_fin _ _ h10, JSNum.ofNat_eq,
    JSNum.fin_add_fin]

/-- At `-1000` ms the time multiplier is `-Infinity`. -/
theorem timeMultiplier_at_minus_1000 : timeMultiplier (-1000) = JSNum.negInf := by
  unfold timeMultiplier
  rw [show (-1000 : ℝ) / 1000 + 1 = 0 by norm_num, jsLog_zero, jsLog_pos 10 (by norm_num),
    JSNum.negInf_div_fin _ (Real.log_pos (by norm_num))]
  rfl

/-- Below `-1000` ms the time multiplier is `NaN`. -/
theorem timeMultiplier_below (t : ℝ) (h : t < -1000) : timeMultiplier t = JSNum.nan := by
  unfold timeMultiplier
  rw [jsLog_neg _ (by linarith), JSNum.nan_div, JSNum.nan_add]

/-- For a site that is not a name of `Object.prototype` and a time above
`-1000` ms the estimate is the real product of the three factors. -/
theorem calculateEnergy_ordinary (t : ℝ) (site : String) (statusCode : Int)
    (ht : -1000 < t) (hs : site ∉ objectPrototypeNames) :
    ∃ b m : ℝ, 0 < b ∧ 0 < m ∧ baseEnergyOf site = JSNum.fin b ∧
      statusMultiplier statusCode = JSNum.fin m ∧
      calculateEnergy t site statusCode
        = JSNum.fin (b * (Real.log (t / 1000 + 1) / Real.log 10 + 1) * m) := by
  obtain ⟨b, hb, hbe⟩ := baseEnergyOf_ordinary site hs
  obtain ⟨m, hm, hme⟩ := statusMultiplier_fin statusCode
  refine ⟨b, m, hb, hm, hbe, hme, ?_⟩
  unfold calculateEnergy
  rw [hbe, hme, timeMultiplier_of_gt t ht, JSNum.fin_mul_fin, JSNum.fin_mul_fin]

/-- For a site that is a name of `Object.prototype` the estimate is `NaN`. -/
theorem calculateEnergy_inherited (t : ℝ) (site : String) (statusCode : Int)
    (hs : site ∈ objectPrototypeNames) : calculateEnergy t site statusCode = JSNum.nan := by
  unfold calculateEnergy
  rw [baseEnergyOf_inherited site hs, JSNum.nan_mul, JSNum.nan_mul]

/-- Monotonicity in the elapsed time, for a site that is not a name of
`Object.prototype`. -/
theorem calculateEnergy_mono_ordinary (site : String) (statusCode : Int) (t1 t2 : ℝ)
    (hs : site ∉ objectPrototypeNames) (h0 : 0 ≤ t1) (h : t1 ≤ t2) :
    calculateEnergy t1 site statusCode ≤ calculateEnergy t2 site statusCode := by
  obtain ⟨b, m, hb, hm, hbe, hme, h1⟩ :=
    calculateEnergy_ordinary t1 site statusCode (by linarith) hs
  obtain ⟨b', m', _, _, hbe', hme', h2⟩ :=
    calculateEnergy_ordinary t2 site statusCode (by linarith) hs
  have hbb : b' = b := JSNum.fin.inj (hbe'.symm.trans hbe)
  have hmm : m' = m := JSNum.fin.inj (hme'.symm.trans hme)
  subst hbb hmm
  rw [h1, h2, JSNum.fin_le_fin]
  have hpos : (0 : ℝ) < t1 / 1000 + 1 := by positivity
  have hlog : Real.log (t1 / 1000 + 1) ≤ Real.log (t2 / 1000 + 1) :=
    Real.log_le_log hpos (by linarith)
  have h10 : (0 : ℝ) < Real.log 10 := Real.log_pos (by norm_num)
  have hdiv : Real.log (t1 / 1000 + 1) / Real.log 10 ≤ Real.log (t2 / 1000 + 1) / Real.log 10 :=
    div_le_div_of_nonneg_right hlog h10.le
  exact mul_le_mul_of_nonneg_right (mul_le_mul_of_nonneg_left (by linarith) hb.le) hm.le

/-- The factor `0.3` of a failed request, for a site that is not a name of
`Object.prototype`. -/
theorem calculateEnergy_ratio_ordinary (t : ℝ) (site : String) (s s' : Int)
    (hs : site ∉ objectPrototypeNames) (ht : 0 ≤ t)
    (hfail : ¬ (200 ≤ s ∧ s < 300)) (hok : 200 ≤ s' ∧ s' < 300) :
    JSNum.eqJS (calculateEnergy t site s) (0.3 * calculateEnergy t site s') := by
  obtain ⟨b, hb, hbe⟩ := baseEnergyOf_ordinary site hs
  unfold calculateEnergy
  rw [hbe, statusMultiplier_failed s hfail, statusMultiplier_ok s' hok,
    timeMultiplier_of_gt t (by linarith), JSNum.ofScientific_eq, JSNum.fin_mul_fin,
    JSNum.fin_mul_fin, JSNum.fin_mul_fin, JSNum.fin_mul_fin, JSNum.eqJS_fin]
  norm_num
  ring

/-- C6. At the site `constructor`, the name under which `https://constructor/api`
is classified, the estimate is `NaN` for every elapsed time, and `NaN <= NaN`
is false: the estimates at 0 ms and at 1000 ms are not in order. -/
theorem calculateEnergy_constructor_not_mono :
    isAIPlatform exampleHostname "https://constructor/api" = some "constructor" ∧
    calculateEnergy 0 "constructor" 200 = JSNum.nan ∧
    calculateEnergy 1000 "constructor" 200 = JSNum.nan ∧
    ¬ (calculateEnergy 0 "constructor" 200 ≤ calculateEnergy 1000 "constructor" 200) := by
  have hc : "constructor" ∈ objectPrototypeNames := by decide
  refine ⟨by decide, calculateEnergy_inherited _ _ _ hc, calculateEnergy_inherited _ _ _ hc, ?_⟩
  rw [calculateEnergy_inherited _ _ _ hc]
  exact JSNum.not_nan_le _

/-- C7. At the site `constructor` the estimate for status 404 and `0.3` times
the estimate for status 200 are both `NaN`, for every elapsed time, and `NaN`
is not equal to `NaN`. -/
theorem calculateEnergy_constructor_ratio :
    isAIPlatform exampleHostname "https://constructor/api" = some "constructor" ∧
    ∀ t : ℝ,
      calculateEnergy t "constructor" 404 = JSNum.nan ∧
      0.3 * calculateEnergy t "constructor" 200 = JSNum.nan ∧
      ¬ JSNum.eqJS (calculateEnergy t "constructor" 404)
          (0.3 * calculateEnergy t "constructor" 200) := by
  have hc : "constructor" ∈ objectPrototypeNames := by decide
  refine ⟨by decide, fun t => ⟨calculateEnergy_inherited _ _ _ hc, ?_, ?_⟩⟩
  · rw [calculateEnergy_inherited _ _ _ hc, JSNum.mul_nan]
  · rw [calculateEnergy_inherited _ _ _ hc]
    exact JSNum.not_eqJS_nan _

/-! ## Aggregation: proofs -/

theorem sum_set_incr (l : List Nat) (i : Nat) (hi : i < l.length) :
    (l.set i (l.getD i 0 + 1)).sum = l.sum + 1 := by
  induction l generalizing i with
  | nil => simp at hi
  | cons x xs ih =>
    cases i with
    | zero => simp [List.set]; omega
    | succ j =>
      have hj : j < xs.length := by simpa using hi
      have := ih j hj
      simp only [List.set, List.sum_cons, List.getD_cons_succ] at *
      omega

theorem incrHour_sum (hour : Fin 24) (h : { l : List Nat // l.length = 24 }) :
    (incrHour hour h).val.sum = h.val.sum + 1 := by
  unfold incrHour
  exact sum_set_incr h.val hour.val (by rw [h.property]; exact hour.isLt)

theorem mapGet_mapSet_self {β : Type} (m : List (String × β)) (key : String) (v : β) :
    mapGet (mapSet m key v) key = some v := by
  induction m with
  | nil => simp [mapSet, mapGet]
  | cons p rest ih =>
    obtain ⟨k, w⟩ := p
    by_cases hk : k = key
    · simp [mapSet, mapGet, hk]
    · simp [mapSet, mapGet, hk, ih]

theorem mapGet_mapSet_other {β : Type} (m : List (String × β)) (key other : String) (v : β)
    (hne : other ≠ key) : mapGet (mapSet m key v) other = mapGet m other := by
  induction m with
  | nil => simp [mapSet, mapGet, Ne.symm hne]
  | cons p rest ih =>
    obtain ⟨k, w⟩ := p
    by_cases hk : k = key
    · subst hk
      simp [mapSet, mapGet, Ne.symm hne]
    · by_cases ho : k = other
      · subst ho
        simp [mapSet, mapGet, hk]
      · simp [mapSet, mapGet, hk, ho, ih]

theorem mapGet_mapModify_self {β : Type} (f : β → β) (m : List (String × β)) (key : String) :
    mapGet (mapModify f m key) key = (mapGet m key).map f := by
  induction m with
  | nil => rfl
  | cons p rest ih =>
    obtain ⟨k, w⟩ := p
    by_cases hk : k = key
    · simp [mapModify, mapGet, hk]
    · simp [mapModify, mapGet, hk, ih]

theorem mapGet_mapModify_other {β : Type} (f : β → β) (m : List (String × β))
    (key other : String) (hne : other ≠ key) :
    mapGet (mapModify f m key) other = mapGet m other := by
  induction m with
  | nil => rfl
  | cons p rest ih =>
    obtain ⟨k, w⟩ := p
    by_cases hk : k = key
    · subst hk
      simp [mapModify, mapGet, Ne.symm hne]
    · by_cases ho : k = other
      · subst ho
        simp [mapModify, mapGet, hk]
      · simp [mapModify, mapGet, hk, ho, ih]

theorem mapModify_absent {β : Type} (f : β → β) (m : List (String × β)) (key : String)
    (h : mapGet m key = none) : mapModify f m key = m := by
  induction m with
  | nil => rfl
  | cons p rest ih =>
    obtain ⟨k, w⟩ := p
    by_cases hk : k = key
    · simp [mapGet, hk] at h
    · simp only [mapGet, if_neg hk] at h
      simp [mapModify, hk, ih h]

theorem siteCountSum_mapSet_absent {R : Type} (sites : List (String × SiteStats R))
    (key : String) (v : SiteStats R) (h : mapGet sites key = none) :
    siteCountSum (mapSet sites key v) = siteCountSum sites + v.count := by
  induction sites with
  | nil => simp [mapSet, siteCountSum]
  | cons p rest ih =>
    obtain ⟨k, w⟩ := p
    by_cases hk : k = key
    · simp [mapGet, hk] at h
    · simp only [mapGet, if_neg hk] at h
      have := ih h
      simp only [siteCountSum, mapSet, if_neg hk, List.map_cons, List.sum_cons] at *
      omega

theorem siteCountSum_mapModify {R : Type} (f : SiteStats R → SiteStats R)
    (hf : ∀ v, (f v).count = v.count + 1) (sites : List (String × SiteStats R))
    (key : String) (h : (mapGet sites key).isSome = true) :
    siteCountSum (mapModify f sites key) = siteCountSum sites + 1 := by
  induction sites with
  | nil => simp [mapGet] at h
  | cons p rest ih =>
    obtain ⟨k, w⟩ := p
    by_cases hk : k = key
    · simp only [siteCountSum, mapModify, if_pos hk, List.map_cons, List.sum_cons, hf]
      omega
    · simp only [mapGet, if_neg hk] at h
      have := ih h
      simp only [siteCountSum, mapModify, if_neg hk, List.map_cons, List.sum_cons] at *
      omega

section Arithmetic

variable {R : Type} [Zero R] [Add R] [Mul R] [OfScientific R] [OfNat R 1000]

theorem recordCompletion_requests (stats : DailyStats R) (site : String) (responseTime : Int)
    (energy : R) (cbNow : Int) (hour : Fin 24) :
    (recordCompletion stats site responseTime energy cbNow hour).requests = stats.requests + 1 :=
  rfl

theorem recordCompletion_hourly (stats : DailyStats R) (site : String) (responseTime : Int)
    (energy : R) (cbNow : Int) (hour : Fin 24) :
    (recordCompletion stats site responseTime energy cbNow hour).hourlyData.val.sum
      = stats.hourlyData.val.sum + 1 :=
  incrHour_sum _ _

/-- For a site that is not a name of `Object.prototype`, one update adds one
to the site counts taken together. -/
theorem recordCompletion_sites_ordinary (stats : DailyStats R) (site : String)
    (responseTime : Int) (energy : R) (cbNow : Int) (hour : Fin 24)
    (hs : site ∉ objectPrototypeNames) :
    siteCountSum (recordCompletion stats site responseTime energy cbNow hour).sites
      = siteCountSum stats.sites + 1 := by
  simp only [recordCompletion]
  cases hg : mapGet stats.sites site with
  | none =>
    rw [objRead_undefined _ _ hg hs]
    simp only [ObjRead.truthy, Bool.false_eq_true, if_false]
    rw [siteCountSum_mapModify _ (fun _ => rfl) _ _ (by rw [mapGet_mapSet_self]; rfl),
      siteCountSum_mapSet_absent _ _ _ hg]
    rfl
  | some v =>
    rw [objRead_own _ _ _ hg]
    simp only [ObjRead.truthy, if_true]
    exact siteCountSum_mapModify _ (fun _ => rfl) _ _ (by rw [hg]; rfl)

/-- For a site that is a name of `Object.prototype` and not an own key, one
update leaves `sites` as it was. -/
theorem recordCompletion_sites_inherited (stats : DailyStats R) (site : String)
    (responseTime : Int) (energy : R) (cbNow : Int) (hour : Fin 24)
    (hs : site ∈ objectPrototypeNames) (hg : mapGet stats.sites site = none) :
    (recordCompletion stats site responseTime energy cbNow hour).sites = stats.sites := by
  simp only [recordCompletion]
  rw [objRead_inherited _ _ hg hs]
  simp only [ObjRead.truthy, if_true]
  exact mapModify_absent _ _ _ hg

/-- No name of `Object.prototype` becomes an own key of `sites`. -/
theorem recordCompletion_keeps_ordinary (stats : DailyStats R) (site : String)
    (responseTime : Int) (energy : R) (cbNow : Int) (hour : Fin 24)
    (h : ∀ key ∈ objectPrototypeNames, mapGet stats.sites key = none) :
    ∀ key ∈ objectPrototypeNames,
      mapGet (recordCompletion stats site responseTime energy cbNow hour).sites key = none := by
  intro key hkey
  by_cases hs : site ∈ objectPrototypeNames
  · rw [recordCompletion_sites_inherited stats site responseTime energy cbNow hour hs (h site hs)]
    exact h key hkey
  · have hne : key ≠ site := fun e => hs (e ▸ hkey)
    simp only [recordCompletion]
    rw [mapGet_mapModify_other _ _ _ _ hne]
    split_ifs
    · exact h key hkey
    · rw [mapGet_mapSet_other _ _ _ _ hne]
      exact h key hkey

end Arithmetic

/-- One update keeps the CO2 total in step with the energy total, in a field. -/
theorem recordCompletion_co2 {R : Type} [Field R] (stats : DailyStats R)
    (site : String) (responseTime : Int) (energy : R) (cbNow : Int) (hour : Fin 24)
    (h : stats.co2Footprint = stats.energyUsed * 0.475 * 1000) :
    (recordCompletion stats site responseTime energy cbNow hour).co2Footprint
      = (recordCompletion stats site responseTime energy cbNow hour).energyUsed * 0.475 * 1000 := by
  simp only [recordCompletion, h]
  ring

theorem afterUpdates_co2 {R : Type} [Field R] (us : List (Update R)) (stats : DailyStats R)
    (h : stats.co2Footprint = stats.energyUsed * 0.475 * 1000) :
    (afterUpdates stats us).co2Footprint = (afterUpdates stats us).energyUsed * 0.475 * 1000 := by
  induction us generalizing stats with
  | nil => exact h
  | cons u us ih => exact ih _ (recordCompletion_co2 stats _ _ _ _ _ h)

/-- One update keeps the CO2 total in step with the energy total, over the
JavaScript numbers. -/
theorem recordCompletion_co2_js (stats : DailyStats JSNum)
    (site : String) (responseTime : Int) (energy : JSNum) (cbNow : Int) (hour : Fin 24)
    (h : stats.co2Footprint = stats.energyUsed * 0.475 * 1000) :
    (recordCompletion stats site responseTime energy cbNow hour).co2Footprint
      = (recordCompletion stats site responseTime energy cbNow hour).energyUsed * 0.475 * 1000 := by
  simp only [recordCompletion, h, JSNum.ofScientific_eq, JSNum.ofNat_eq]
  rw [JSNum.add_mul_fin_pos _ _ _ (by norm_num), JSNum.add_mul_fin_pos _ _ _ (by norm_num)]

theorem afterCompletions_snd_some (initial : DailyStats JSNum) (slot : Option (DailyStats JSNum))
    (c : Completion) (cs : List Completion) :
    afterCompletions initial slot (c :: cs)
      = afterCompletions
          (initialAfter initial slot
            (completionUpdate initial slot c.timing c.statusCode c.now c.cbNow c.hour))
          (some (completionUpdate initial slot c.timing c.statusCode c.now c.cbNow c.hour)) cs :=
  rfl

theorem afterCompletions_co2 (cs : List Completion) (initial s0 : DailyStats JSNum)
    (h0 : s0.co2Footprint = s0.energyUsed * 0.475 * 1000) :
    ∃ s, (afterCompletions initial (some s0) cs).2 = some s ∧
      s.co2Footprint = s.energyUsed * 0.475 * 1000 := by
  induction cs generalizing initial s0 with
  | nil => exact ⟨s0, rfl, h0⟩
  | cons c cs ih =>
    rw [afterCompletions_snd_some]
    exact ih _ _ (recordCompletion_co2_js s0 _ _ _ _ _ h0)

/-- From statistics whose own site keys are not names of `Object.prototype`,
the completions `cs` add `cs.length` to `requests` and to the hourly counters
taken together, and add to the site counts taken together the number of
completions whose site is not such a name. -/
theorem afterCompletions_counts (cs : List Completion) (initial s0 : DailyStats JSNum)
    (h0 : ∀ key ∈ objectPrototypeNames, mapGet s0.sites key = none) :
    ∃ s, (afterCompletions initial (some s0) cs).2 = some s ∧
      s.requests = s0.requests + cs.length ∧
      s.hourlyData.val.sum = s0.hourlyData.val.sum + cs.length ∧
      siteCountSum s.sites = siteCountSum s0.sites
        + (cs.filter (fun c => !objectPrototypeNames.contains c.timing.site)).length ∧
      ∀ key ∈ objectPrototypeNames, mapGet s.sites key = none := by
  induction cs generalizing initial s0 with
  | nil => exact ⟨s0, rfl, rfl, rfl, rfl, h0⟩
  | cons c cs ih =>
    rw [afterCompletions_snd_some]
    have hkeep := recordCompletion_keeps_ordinary s0 c.timing.site (c.now - c.timing.startTime)
      (calculateEnergy ((c.now - c.timing.startTime : Int) : ℝ) c.timing.site c.statusCode)
      c.cbNow c.hour h0
    obtain ⟨s, hs, h1, h2, h3, h4⟩ :=
      ih (initialAfter initial (some s0)
            (completionUpdate initial (some s0) c.timing c.statusCode c.now c.cbNow c.hour))
         (completionUpdate initial (some s0) c.timing c.statusCode c.now c.cbNow c.hour) hkeep
    refine ⟨s, hs, ?_, ?_, ?_, h4⟩
    · rw [h1]
      simp only [completionUpdate, Option.getD_some, recordCompletion_requests, List.length_cons]
      omega
    · rw [h2]
      simp only [completionUpdate, Option.getD_some, recordCompletion_hourly, List.length_cons]
      omega
    · rw [h3]
      by_cases hsite : c.timing.site ∈ objectPrototypeNames
      · have hc : objectPrototypeNames.contains c.timing.site = true := by simpa using hsite
        simp only [completionUpdate, Option.getD_some, List.filter_cons, hc, Bool.not_true,
          Bool.false_eq_true, if_false]
        rw [recordCompletion_sites_inherited _ _ _ _ _ _ hsite (h0 _ hsite)]
      · have hc : objectPrototypeNames.contains c.timing.site = false := by simpa using hsite
        simp only [completionUpdate, Option.getD_some, List.filter_cons, hc, Bool.not_false,
          if_true, List.length_cons]
        rw [recordCompletion_sites_ordinary _ _ _ _ _ _ hsite]
        omega

/-- C1. One completion for the site `constructor`, the name under which
`https://constructor/api` is classified, applied to `INITIAL_STATS`: `requests`
and the hourly counters sum to 1, the site counts sum to 0. -/
theorem completions_constructor_uncounted :
    isAIPlatform exampleHostname "https://constructor/api" = some "constructor" ∧
    ∃ s, (afterCompletions INITIAL_STATS (some INITIAL_STATS) [constructorCompletion]).2 = some s ∧
      s.requests = 1 ∧ s.hourlyData.val.sum = 1 ∧ siteCountSum s.sites = 0 := by
  refine ⟨by decide, ?_⟩
  obtain ⟨s, hs, h1, h2, h3, _⟩ :=
    afterCompletions_counts [constructorCompletion] INITIAL_STATS INITIAL_STATS
      (fun _ _ => rfl)
  refine ⟨s, hs, ?_, ?_, ?_⟩
  · simpa [INITIAL_STATS] using h1
  · simpa [INITIAL_STATS] using h2
  · rw [h3]
    have hc : constructorCompletion.timing.site ∈ objectPrototypeNames := by decide
    simp [List.filter_cons, hc, INITIAL_STATS, siteCountSum]

/-- C10. From `INITIAL_STATS`, after any sequence of updates the CO2 total is
the energy total times `0.475` times `1000`: in exact arithmetic, for the
updates with any energy values in a field, and as values for the completions
of the handler over the JavaScript numbers. -/
theorem completions_co2 :
    (∀ (R : Type) [Field R] (us : List (Update R)),
      (afterUpdates INITIAL_STATS us).co2Footprint
        = (afterUpdates INITIAL_STATS us).energyUsed * 0.475 * 1000) ∧
    ∀ (initial : DailyStats JSNum) (cs : List Completion),
      ∃ s, (afterCompletions initial (some INITIAL_STATS) cs).2 = some s ∧
        s.co2Footprint = s.energyUsed * 0.475 * 1000 := by
  constructor
  · intro R _ us
    exact afterUpdates_co2 us INITIAL_STATS (by simp [INITIAL_STATS])
  · intro initial cs
    refine afterCompletions_co2 cs initial INITIAL_STATS ?_
    show (JSNum.fin 0) = JSNum.fin 0 * 0.475 * 1000
    rw [JSNum.ofScientific_eq, JSNum.ofNat_eq, JSNum.fin_mul_fin, JSNum.fin_mul_fin]
    norm_num

/-! ## Rollover: proofs -/

theorem sliceLast30_snoc {α : Type} (h : List α) (e : α) :
    sliceLast30 (h ++ [e]) = h.drop (h.length - 29) ++ [e] := by
  unfold sliceLast30
  have hlen : (h ++ [e]).length - 30 = h.length - 29 := by
    simp only [List.length_append, List.length_singleton]; omega
  rw [hlen, List.drop_append_of_le_length (by omega)]

theorem sliceLast30_length {α : Type} (l : List α) : (sliceLast30 l).length = min l.length 30 := by
  unfold sliceLast30
  rw [List.length_drop]
  omega

theorem sliceLast30_of_short {α : Type} (l : List α) (h : l.length ≤ 30) : sliceLast30 l = l := by
  unfold sliceLast30
  rw [Nat.sub_eq_zero_of_le h, List.drop_zero]

theorem sliceLast30_append {α : Type} (a b : List α) :
    sliceLast30 (sliceLast30 a ++ b) = sliceLast30 (a ++ b) := by
  by_cases ha : a.length ≤ 30
  · rw [sliceLast30_of_short a ha]
  · have hlen : (sliceLast30 a).length = 30 := by rw [sliceLast30_length]; omega
    have hab : (a ++ b).drop (a.length - 30) = a.drop (a.length - 30) ++ b :=
      List.drop_append_of_le_length (by omega)
    unfold sliceLast30 at hlen ⊢
    rw [List.length_append, hlen, List.length_append,
      show 30 + b.length - 30 = b.length by omega,
      show a.length + b.length - 30 = (a.length - 30) + b.length by omega,
      ← List.drop_drop, hab]

theorem onAlarm_dailyReset (initial : DailyStats JSNum) (storage : Storage) (isoDate : String) :
    onAlarm initial storage "dailyReset" isoDate =
      { history := some (sliceLast30
          (storage.history.getD [] ++ [rolloverEntry initial storage.dailyStats isoDate]))
        dailyStats := some { initial with
          isTracking := (storage.dailyStats.getD initial).isTracking } } := by
  simp [onAlarm, rolloverEntry]

theorem afterRollovers_eq (h : List HistoryEntry) (evs : List Rollover) (hh : h.length ≤ 30) :
    afterRollovers (some h) evs
      = some (sliceLast30
          (h ++ evs.map (fun ev => rolloverEntry ev.initial ev.dailyStats ev.isoDate))) := by
  induction evs generalizing h with
  | nil => simp [afterRollovers, sliceLast30_of_short h hh]
  | cons ev rest ih =>
    simp only [afterRollovers, onAlarm_dailyReset, Option.getD_some]
    rw [ih _ (by rw [sliceLast30_length]; omega), sliceLast30_append]
    simp

/-- With `INITIAL_STATS` at its declared value, the rollover of a persisted
`dailyStats = s` pushes the snapshot of `s` as the last stored entry and
writes the zero defaults with `isTracking` taken from `s`. -/
theorem onAlarm_of_declared (s : DailyStats JSNum) (history : Option (List HistoryEntry))
    (isoDate : String) :
    (∃ kept, (onAlarm INITIAL_STATS { dailyStats := some s, history := history } "dailyReset"
        isoDate).history = some (kept ++ [{ date := isoDate, stats := jsonClone s }])) ∧
    (jsonClone s).requests = s.requests ∧ (jsonClone s).totalTime = s.totalTime ∧
    (jsonClone s).hourlyData = s.hourlyData ∧
    (jsonClone s).sites.map (fun p => (p.1, p.2.count)) = s.sites.map (fun p => (p.1, p.2.count)) ∧
    (onAlarm INITIAL_STATS { dailyStats := some s, history := history } "dailyReset"
        isoDate).dailyStats
      = some { requests := 0, totalTime := 0, energyUsed := 0, co2Footprint := 0, sites := [],
               hourlyData := ⟨List.replicate 24 0, List.length_replicate 24 0⟩,
               isTracking := s.isTracking, lastReset := none } := by
  rw [onAlarm_dailyReset]
  refine ⟨⟨(history.getD []).drop ((history.getD []).length - 29), ?_⟩, rfl, rfl, rfl, ?_, rfl⟩
  · simp only [rolloverEntry, Option.getD_some]
    rw [sliceLast30_snoc]
  · simp [jsonClone, List.map_map, Function.comp]

/-- C3. The rollover stores the last 30 elements of the history with the new
entry appended, in order: the stored list has length `min (length + 1) 30`,
ends with the new entry, and what is dropped is a prefix of the old history,
its oldest entries. From an empty history, 31 rollovers leave the 30 entries
of rollovers 2 to 31. -/
theorem onAlarm_history_cap (initial : DailyStats JSNum) (storage : Storage) (isoDate : String) :
    (∃ stored,
      (onAlarm initial storage "dailyReset" isoDate).history = some stored ∧
      stored = sliceLast30
        (storage.history.getD [] ++ [rolloverEntry initial storage.dailyStats isoDate]) ∧
      stored.length = min ((storage.history.getD []).length + 1) 30 ∧
      stored.getLast? = some (rolloverEntry initial storage.dailyStats isoDate) ∧
      (storage.history.getD []).take ((storage.history.getD []).length - 29) ++ stored
        = storage.history.getD [] ++ [rolloverEntry initial storage.dailyStats isoDate]) ∧
    ∀ evs : List Rollover, evs.length = 31 →
      afterRollovers (some []) evs
        = some ((evs.drop 1).map (fun ev => rolloverEntry ev.initial ev.dailyStats ev.isoDate)) ∧
      ((evs.drop 1).map
        (fun ev => rolloverEntry ev.initial ev.dailyStats ev.isoDate)).length = 30 := by
  constructor
  · refine ⟨_, by rw [onAlarm_dailyReset], rfl, ?_, ?_, ?_⟩
    · rw [sliceLast30_length]; simp
    · rw [sliceLast30_snoc]; simp
    · rw [sliceLast30_snoc, ← List.append_assoc, List.take_append_drop]
  · intro evs hlen
    refine ⟨?_, by simp [hlen]⟩
    rw [afterRollovers_eq [] evs (by simp)]
    simp [sliceLast30, hlen, List.map_drop]

/-- C3, worked: 31 rollovers from the empty history. -/
theorem onAlarm_history_cap_witness :
    sampleRollovers.length = 31 ∧
    afterRollovers (some []) sampleRollovers
      = some ((sampleRollovers.drop 1).map
          (fun ev => rolloverEntry ev.initial ev.dailyStats ev.isoDate)) ∧
    ((sampleRollovers.drop 1).map
      (fun ev => rolloverEntry ev.initial ev.dailyStats ev.isoDate)).length = 30 :=
  ⟨by simp [sampleRollovers],
    (onAlarm_history_cap INITIAL_STATS { dailyStats := none, history := none } "day 0").2
      sampleRollovers (by simp [sampleRollovers])⟩

/-! ## Completion handler: proofs -/

theorem mapGet_mapDelete_self {β : Type} (m : List (String × β)) (key : String) :
    mapGet (mapDelete m key) key = none := by
  induction m with
  | nil => rfl
  | cons p rest ih =>
    obtain ⟨k, w⟩ := p
    by_cases hk : k = key
    · simpa [mapDelete, hk] using ih
    · have hb : (!(k == key)) = true := by simp [hk]
      simp only [mapDelete, List.filter_cons, hb, if_true, mapGet, if_neg hk]
      exact ih

/-- The count of the recorded site after one update, for a site that is not a
name of `Object.prototype`: its previous value, or zero for a new site, plus one. -/
theorem recordCompletion_site_count {R : Type} [Zero R] [Add R] [Mul R] [OfScientific R]
    [OfNat R 1000] (stats : DailyStats R) (site : String) (responseTime : Int) (energy : R)
    (cbNow : Int) (hour : Fin 24) (hs : site ∉ objectPrototypeNames) :
    (mapGet (recordCompletion stats site responseTime energy cbNow hour).sites site).map
        (fun v => v.count)
      = some (((mapGet stats.sites site).map (fun v => v.count)).getD 0 + 1) := by
  simp only [recordCompletion, mapGet_mapModify_self]
  cases hg : mapGet stats.sites site with
  | none =>
    rw [objRead_undefined _ _ hg hs]
    simp [ObjRead.truthy, mapGet_mapSet_self]
  | some v =>
    rw [objRead_own _ _ _ hg]
    simp [ObjRead.truthy, hg]

theorem onCompleted_pending (w : Worker) (requestId : String) (timing : Timing)
    (statusCode now cbNow : Int) (hour : Fin 24)
    (hp : mapGet w.requestTimings requestId = some timing) :
    onCompleted w requestId statusCode now cbNow hour =
      { requestTimings := mapDelete w.requestTimings requestId
        initialStats := initialAfter w.initialStats w.storage.dailyStats
          (completionUpdate w.initialStats w.storage.dailyStats timing statusCode now cbNow hour)
        storage := { w.storage with
          dailyStats := some (completionUpdate w.initialStats w.storage.dailyStats timing
            statusCode now cbNow hour) } } := by
  simp only [onCompleted, hp]

theorem onCompleted_unknown (w : Worker) (requestId : String)
    (statusCode now cbNow : Int) (hour : Fin 24)
    (hp : mapGet w.requestTimings requestId = none) :
    onCompleted w requestId statusCode now cbNow hour = w := by
  simp only [onCompleted, hp]

/-- C2. On a worker whose first completion found no `dailyStats` in storage,
that completion wrote its site entry and its hourly count into the objects of
`INITIAL_STATS`; `dailyStats` is persisted from then on, and the next rollover
writes as new `dailyStats` an object with `requests = 0` whose `sites` holds
`chatgpt.com` with count 1 and whose `hourlyData` sums to 1, not the defaults. -/
theorem onAlarm_after_first_run :
    (onCompleted firstRunWorker "42" 200 1450 1451 9).storage.dailyStats.isSome = true ∧
    ∃ s,
      (onAlarm (onCompleted firstRunWorker "42" 200 1450 1451 9).initialStats
          (onCompleted firstRunWorker "42" 200 1450 1451 9).storage "dailyReset"
          "2024-01-02T00:00:00.000Z").dailyStats = some s ∧
      s.requests = 0 ∧
      (mapGet s.sites "chatgpt.com").map (fun v => v.count) = some 1 ∧
      siteCountSum s.sites = 1 ∧
      s.hourlyData.val.sum = 1 := by
  have hrun := onCompleted_pending firstRunWorker "42" sampleTiming 200 1450 1451 9 rfl
  have hord : sampleTiming.site ∉ objectPrototypeNames := by decide
  rw [hrun, onAlarm_dailyReset]
  refine ⟨rfl, _, rfl, rfl, ?_, ?_, ?_⟩
  · exact recordCompletion_site_count INITIAL_STATS sampleTiming.site (1450 - 1000)
      (calculateEnergy ((1450 - 1000 : Int) : ℝ) sampleTiming.site 200) 1451 9 hord
  · exact recordCompletion_sites_ordinary INITIAL_STATS sampleTiming.site (1450 - 1000)
      (calculateEnergy ((1450 - 1000 : Int) : ℝ) sampleTiming.site 200) 1451 9 hord
  · exact recordCompletion_hourly INITIAL_STATS sampleTiming.site (1450 - 1000)
      (calculateEnergy ((1450 - 1000 : Int) : ℝ) sampleTiming.site 200) 1451 9

/-- C8. For a pending `requestId`, the first completion makes one update for
the recorded timing (one more request; one more on the site's count when the
site is not a name of `Object.prototype`) and removes the id from
`requestTimings`; a second completion for the same id finds nothing and
leaves the whole state, map and statistics, as it was. -/
theorem onCompleted_idempotent (w : Worker) (requestId : String) (timing : Timing)
    (status1 now1 cb1 : Int) (hour1 : Fin 24) (status2 now2 cb2 : Int) (hour2 : Fin 24)
    (hp : mapGet w.requestTimings requestId = some timing) :
    (∃ s1,
      (onCompleted w requestId status1 now1 cb1 hour1).storage.dailyStats = some s1 ∧
      s1 = completionUpdate w.initialStats w.storage.dailyStats timing status1 now1 cb1 hour1 ∧
      s1.requests = (w.storage.dailyStats.getD w.initialStats).requests + 1 ∧
      (timing.site ∉ objectPrototypeNames →
        (mapGet s1.sites timing.site).map (fun v => v.count)
          = some (((mapGet (w.storage.dailyStats.getD w.initialStats).sites timing.site).map
              (fun v => v.count)).getD 0 + 1))) ∧
    (onCompleted w requestId status1 now1 cb1 hour1).requestTimings
      = mapDelete w.requestTimings requestId ∧
    mapGet (onCompleted w requestId status1 now1 cb1 hour1).requestTimings requestId = none ∧
    onCompleted (onCompleted w requestId status1 now1 cb1 hour1) requestId status2 now2 cb2 hour2
      = onCompleted w requestId status1 now1 cb1 hour1 := by
  have hdel : mapGet (onCompleted w requestId status1 now1 cb1 hour1).requestTimings requestId
      = none := by
    rw [onCompleted_pending w requestId timing status1 now1 cb1 hour1 hp]
    exact mapGet_mapDelete_self _ _
  refine ⟨⟨completionUpdate w.initialStats w.storage.dailyStats timing status1 now1 cb1 hour1,
    ?_, rfl, rfl, ?_⟩, ?_, hdel, onCompleted_unknown _ _ _ _ _ _ hdel⟩
  · rw [onCompleted_pending w requestId timing status1 now1 cb1 hour1 hp]
  · intro hs
    exact recordCompletion_site_count _ _ _ _ _ _ hs
  · rw [onCompleted_pending w requestId timing status1 now1 cb1 hour1 hp]

/-- C8, worked: request `42` completes at `t = 1450` with status 200, then a
second completion event for `42` arrives. -/
theorem onCompleted_idempotent_witness :
    mapGet sampleWorker.requestTimings "42" = some sampleTiming ∧
    mapGet (onCompleted sampleWorker "42" 200 1450 1451 9).requestTimings "42" = none ∧
    onCompleted (onCompleted sampleWorker "42" 200 1450 1451 9) "42" 200 1500 1501 9
      = onCompleted sampleWorker "42" 200 1450 1451 9 :=
  ⟨rfl,
    (onCompleted_idempotent sampleWorker "42" sampleTiming
      200 1450 1451 9 200 1500 1501 9 rfl).2.2⟩

/-- C9, as stated, fails: with a request pending since `t = 1000` and a
completion at `t = 400`, the time added to `totalTime` is `-600`, not the
clamped `max 0 (400 - 1000) = 0`, and the estimate is taken at `-600`, below
the estimate at `0`. -/
theorem onCompleted_negative_elapsed :
    (onCompleted sampleWorker "42" 200 400 401 9).storage.dailyStats.map (fun s => s.totalTime)
      = some (-600) ∧
    max 0 ((400 : Int) - 1000) = 0 ∧
    (onCompleted sampleWorker "42" 200 400 401 9).storage.dailyStats.map (fun s => s.energyUsed)
      = some (0 + calculateEnergy (((-600 : Int) : ℝ)) "chatgpt.com" 200) ∧
    calculateEnergy (((-600 : Int) : ℝ)) "chatgpt.com" 200
      < calculateEnergy (((max 0 ((400 : Int) - 1000) : Int) : ℝ)) "chatgpt.com" 200 := by
  have hrun := onCompleted_pending sampleWorker "42" sampleTiming 200 400 401 9 rfl
  have hord : "chatgpt.com" ∉ objectPrototypeNames := by decide
  refine ⟨?_, by decide, ?_, ?_⟩
  · rw [hrun]
    simp [completionUpdate, recordCompletion, sampleWorker, sampleTiming, INITIAL_STATS]
  · rw [hrun]
    simp [completionUpdate, recordCompletion, sampleWorker, sampleTiming, INITIAL_STATS]
  · obtain ⟨b, m, hb, hm, hbe, hme, h1⟩ :=
      calculateEnergy_ordinary (((-600 : Int) : ℝ)) "chatgpt.com" 200 (by norm_num) hord
    obtain ⟨b', m', _, _, hbe', hme', h2⟩ :=
      calculateEnergy_ordinary (((max 0 ((400 : Int) - 1000) : Int) : ℝ)) "chatgpt.com" 200
        (by norm_num) hord
    have hbb : b' = b := JSNum.fin.inj (hbe'.symm.trans hbe)
    have hmm : m' = m := JSNum.fin.inj (hme'.symm.trans hme)
    subst hbb hmm
    rw [h1, h2, JSNum.fin_lt_fin]
    have h10 : (0 : ℝ) < Real.log 10 := Real.log_pos (by norm_num)
    have hneg : Real.log ((((-600 : Int) : ℝ)) / 1000 + 1) < 0 :=
      Real.log_neg (by norm_num) (by norm_num)
    have hdiv : Real.log ((((-600 : Int) : ℝ)) / 1000 + 1) / Real.log 10 < 0 :=
      div_neg_of_neg_of_pos hneg h10
    have hmax : (((max 0 ((400 : Int) - 1000) : Int)) : ℝ) = 0 := by norm_num
    rw [hmax]
    simp only [zero_div, zero_add, Real.log_one]
    exact mul_lt_mul_of_pos_right (mul_lt_mul_of_pos_left (by linarith) hb) hm

/-- C9, amended. For a pending request started at `s` and a completion at
`now`, the time passed to `calculateEnergy` and added to the day's `totalTime`
is `now - s`, unclamped: it is non-negative exactly when `s ≤ now`, and then
it is `max 0 (now - s)`. -/
theorem onCompleted_elapsed (w : Worker) (requestId : String) (timing : Timing)
    (statusCode now cbNow : Int) (hour : Fin 24)
    (hp : mapGet w.requestTimings requestId = some timing) :
    (∃ s1,
      (onCompleted w requestId statusCode now cbNow hour).storage.dailyStats = some s1 ∧
      s1.totalTime = (w.storage.dailyStats.getD w.initialStats).totalTime
        + (now - timing.startTime) ∧
      s1.energyUsed = (w.storage.dailyStats.getD w.initialStats).energyUsed
        + calculateEnergy (((now - timing.startTime : Int)) : ℝ) timing.site statusCode) ∧
    (0 ≤ now - timing.startTime ↔ timing.startTime ≤ now) ∧
    (timing.startTime ≤ now → now - timing.startTime = max 0 (now - timing.startTime)) := by
  refine ⟨⟨completionUpdate w.initialStats w.storage.dailyStats timing statusCode now cbNow hour,
    ?_, rfl, rfl⟩, by omega, by omega⟩
  rw [onCompleted_pending w requestId timing statusCode now cbNow hour hp]

/-- C9 amended, worked: the pending request `42` of `sampleWorker` completes at `t = 1450`. -/
theorem onCompleted_elapsed_witness :
    mapGet sampleWorker.requestTimings "42" = some sampleTiming ∧
    ∃ s1, (onCompleted sampleWorker "42" 200 1450 1451 9).storage.dailyStats = some s1 ∧
      s1.totalTime
        = (sampleWorker.storage.dailyStats.getD sampleWorker.initialStats).totalTime
          + (1450 - sampleTiming.startTime) :=
  ⟨rfl,
    let ⟨s1, h1, h2, _⟩ := (onCompleted_elapsed sampleWorker "42" sampleTiming
      200 1450 1451 9 rfl).1
    ⟨s1, h1, h2⟩⟩

/-! ## Registry keys against the classifier -/

/-- The ten keys without a `www.` are classified under their own name, so the
estimate for them uses their own coefficient. -/
theorem isAIPlatform_plain_keys :
    (registryKeys.filter (fun k => !(k == "www.copilot.com"))).all
      (fun k => isAIPlatform exampleHostname ("https://" ++ k ++ "/") == some k
        && (mapGet AI_PLATFORMS k).isSome) = true := by
  decide

/-- C11. The key `www.copilot.com` is not returned for its own URL: the
replacement strips the `www.` of the hostname before the lookup, `copilot.com`
is not a key and is classified by the `copilot` token, and the estimate for
`copilot.com` uses the default `0.0003` where the entry declares `0.0005`. -/
theorem isAIPlatform_copilot_key :
    "www.copilot.com" ∈ registryKeys ∧
    exampleHostname ("https://" ++ "www.copilot.com" ++ "/") = some "www.copilot.com" ∧
    isAIPlatform exampleHostname ("https://" ++ "www.copilot.com" ++ "/") = some "copilot.com" ∧
    isAIPlatform exampleHostname ("https://" ++ "www.copilot.com" ++ "/") ≠ some "www.copilot.com" ∧
    (mapGet AI_PLATFORMS "copilot.com").isSome = false ∧
    baseEnergyOf "copilot.com" = 0.0003 ∧
    baseEnergyOf "www.copilot.com" = 0.0005 ∧
    ∀ t : ℝ, ∀ statusCode : Int,
      calculateEnergy t "copilot.com" statusCode
        = 0.0003 * timeMultiplier t * statusMultiplier statusCode := by
  have hb : baseEnergyOf "copilot.com" = 0.0003 := by
    unfold baseEnergyOf
    rw [objRead_undefined _ _ (by simp [mapGet, AI_PLATFORMS]) (by decide)]
  refine ⟨by decide, by decide, by decide, by decide, by decide, hb, ?_, ?_⟩
  · unfold baseEnergyOf
    rw [objRead_own AI_PLATFORMS "www.copilot.com" ⟨"Copilot", 0.0005⟩
      (by simp [mapGet, AI_PLATFORMS]), JSNum.ofScientific_eq]
    congr 1
  · intro t statusCode
    unfold calculateEnergy
    rw [hb]

end Background
